import Mathlib

/-!
Verification of the kinematics solver and force-analysis engine of the
Arm_Force_Interactive repository, shallowly embedded from
frontend/src/utils/api.js (the calculations/websocket utility module).
JavaScript numbers are modelled as real numbers; `Math.sqrt`, `Math.cos`,
`Math.sin` and `Math.atan2` become `Real.sqrt`, `Real.cos`, `Real.sin`
and `Complex.arg`; the `points.find(...)` lookups on the geometry's
point array become `List.find?` keyed on the point id string; the
in-place mutation of a found point in the JSON-cloned array becomes a
functional first-match replacement; JavaScript functions that return
`null` (or would throw on missing data) become `Option`-valued.
-/

namespace ArmForce

/-- A 2-D coordinate, the `{x, y}` point records of calculations.js. -/
@[ext]
structure Pt where
  x : ℝ
  y : ℝ

/-- A named point of a geometry: an element of `geometry.points`,
an object `{id, x, y}`. -/
@[ext]
structure NPoint where
  id : String
  x : ℝ
  y : ℝ

/-- The coordinate part of a named point. -/
def NPoint.pos (p : NPoint) : Pt := ⟨p.x, p.y⟩

/-- A geometry: the `{points: [...]}` record handed to the solver. -/
structure Geometry where
  points : List NPoint

/-- `distance(p1, p2)` of calculations.js:
`Math.sqrt(Math.pow(p2.x - p1.x, 2) + Math.pow(p2.y - p1.y, 2))`. -/
noncomputable def distance (p1 p2 : Pt) : ℝ :=
  Real.sqrt ((p2.x - p1.x) ^ 2 + (p2.y - p1.y) ^ 2)

/-- `Math.atan2(y, x)`, modelled as the argument of the complex number
`x + y i` (the principal value in `(-π, π]`, matching atan2). -/
noncomputable def atan2 (y x : ℝ) : ℝ := Complex.arg ⟨x, y⟩

/-- `angle(p1, p2)` of calculations.js: `Math.atan2(p2.y - p1.y, p2.x - p1.x)`. -/
noncomputable def angle (p1 p2 : Pt) : ℝ := atan2 (p2.y - p1.y) (p2.x - p1.x)

/-- `pointFromDistanceAndAngle(basePoint, distance, angle)` of calculations.js. -/
noncomputable def pointFromDistanceAndAngle (basePoint : Pt) (d θ : ℝ) : Pt :=
  ⟨basePoint.x + d * Real.cos θ, basePoint.y + d * Real.sin θ⟩

theorem distance_nonneg (p1 p2 : Pt) : 0 ≤ distance p1 p2 :=
  Real.sqrt_nonneg _

theorem distance_sq (p1 p2 : Pt) :
    distance p1 p2 ^ 2 = (p2.x - p1.x) ^ 2 + (p2.y - p1.y) ^ 2 :=
  Real.sq_sqrt (by positivity)

theorem distance_comm (p1 p2 : Pt) : distance p1 p2 = distance p2 p1 := by
  unfold distance
  ring_nf

theorem distance_self (p : Pt) : distance p p = 0 := by
  simp [distance]

theorem distance_eq_of_sq (p1 p2 : Pt) (r : ℝ) (hr : 0 ≤ r)
    (h : (p2.x - p1.x) ^ 2 + (p2.y - p1.y) ^ 2 = r ^ 2) : distance p1 p2 = r := by
  rw [distance, h, Real.sqrt_sq hr]

theorem distance_eq_zero_iff (p1 p2 : Pt) : distance p1 p2 = 0 ↔ p1 = p2 := by
  constructor
  · intro h
    rw [distance, Real.sqrt_eq_zero (by positivity)] at h
    have hx : (p2.x - p1.x) ^ 2 = 0 := by nlinarith [sq_nonneg (p2.x - p1.x), sq_nonneg (p2.y - p1.y)]
    have hy : (p2.y - p1.y) ^ 2 = 0 := by nlinarith [sq_nonneg (p2.x - p1.x), sq_nonneg (p2.y - p1.y)]
    have hx0 : p2.x - p1.x = 0 := by
      exact pow_eq_zero_iff (by norm_num) |>.mp hx
    have hy0 : p2.y - p1.y = 0 := by
      exact pow_eq_zero_iff (by norm_num) |>.mp hy
    ext <;> linarith
  · rintro rfl
    exact distance_self p1

/-- The polar decomposition behind `angle`: scaling the direction
`(cos (angle p1 p2), sin (angle p1 p2))` by `distance p1 p2` recovers the
displacement from `p1` to `p2`. -/
theorem distance_mul_cos_sin_angle (p1 p2 : Pt) (h : distance p1 p2 ≠ 0) :
    distance p1 p2 * Real.cos (angle p1 p2) = p2.x - p1.x ∧
    distance p1 p2 * Real.sin (angle p1 p2) = p2.y - p1.y := by
  set z : Complex := ⟨p2.x - p1.x, p2.y - p1.y⟩ with hz
  have habs : Complex.abs z = distance p1 p2 := by
    rw [Complex.abs_apply, Complex.normSq_mk, distance]
    ring_nf
  have hz0 : z ≠ 0 := by
    intro h0
    rw [h0] at habs
    simp at habs
    exact h habs.symm
  have hcos : Real.cos (angle p1 p2) = z.re / Complex.abs z := by
    rw [angle, atan2, ← hz]
    exact Complex.cos_arg hz0
  have hsin : Real.sin (angle p1 p2) = z.im / Complex.abs z := by
    rw [angle, atan2, ← hz]
    exact Complex.sin_arg z
  rw [hcos, hsin, habs]
  constructor
  · rw [mul_div_cancel₀ _ h]
  · rw [mul_div_cancel₀ _ h]

/-- Moving distance `L ≥ 0` at any angle from a base point lands at
distance exactly `L` from it. -/
theorem distance_point_at (base : Pt) (L θ : ℝ) (hL : 0 ≤ L) :
    distance base ⟨base.x + L * Real.cos θ, base.y + L * Real.sin θ⟩ = L := by
  apply distance_eq_of_sq _ _ _ hL
  have htrig : Real.sin θ ^ 2 + Real.cos θ ^ 2 = 1 := Real.sin_sq_add_cos_sq θ
  simp only []
  nlinarith [htrig]

/-- `circleIntersection(center1, radius1, center2, radius2)` of
calculations.js: `null` on the three guard conditions, otherwise the
ordered pair of the two intersection points computed from
`a = (r1² - r2² + d²)/(2d)` and `h = sqrt(r1² - a²)`. -/
noncomputable def circleIntersection (center1 : Pt) (radius1 : ℝ)
    (center2 : Pt) (radius2 : ℝ) : Option (Pt × Pt) :=
  let d := distance center1 center2
  if d > radius1 + radius2 then none
  else if d < |radius1 - radius2| then none
  else if d = 0 ∧ radius1 = radius2 then none
  else
    let a := (radius1 ^ 2 - radius2 ^ 2 + d ^ 2) / (2 * d)
    let h := Real.sqrt (radius1 ^ 2 - a ^ 2)
    let p2x := center1.x + a * (center2.x - center1.x) / d
    let p2y := center1.y + a * (center2.y - center1.y) / d
    some (⟨p2x + h * (center2.y - center1.y) / d, p2y - h * (center2.x - center1.x) / d⟩,
          ⟨p2x - h * (center2.y - center1.y) / d, p2y + h * (center2.x - center1.x) / d⟩)

theorem circleIntersection_eq_none_iff (c1 : Pt) (r1 : ℝ) (c2 : Pt) (r2 : ℝ) :
    circleIntersection c1 r1 c2 r2 = none ↔
      r1 + r2 < distance c1 c2 ∨ distance c1 c2 < |r1 - r2| ∨
        (distance c1 c2 = 0 ∧ r1 = r2) := by
  unfold circleIntersection
  dsimp only
  split_ifs with h1 h2 h3 <;> simp_all

/-- Coincident centers always fall into one of the `null` guards: either the
radii are equal (third guard) or `0 = d < |r1 - r2|` (second guard). -/
theorem circleIntersection_eq_none_of_dist_zero (c1 : Pt) (r1 : ℝ) (c2 : Pt) (r2 : ℝ)
    (hd : distance c1 c2 = 0) : circleIntersection c1 r1 c2 r2 = none := by
  rw [circleIntersection_eq_none_iff]
  by_cases hr : r1 = r2
  · exact Or.inr (Or.inr ⟨hd, hr⟩)
  · refine Or.inr (Or.inl ?_)
    rw [hd]
    exact abs_pos.mpr (sub_ne_zero.mpr hr)

/-- If the solver produced an intersection pair, the centers are distinct,
so the divisions by `d` in the formula are divisions by a nonzero number. -/
theorem circleIntersection_some_dist_pos (c1 : Pt) (r1 : ℝ) (c2 : Pt) (r2 : ℝ)
    (p q : Pt) (hs : circleIntersection c1 r1 c2 r2 = some (p, q)) :
    0 < distance c1 c2 := by
  rcases lt_or_eq_of_le (distance_nonneg c1 c2) with h | h
  · exact h
  · rw [circleIntersection_eq_none_of_dist_zero c1 r1 c2 r2 h.symm] at hs
    exact absurd hs (by simp)

/-- In the non-`null` branch the discriminant `r1² - a²` of the
intersection formula is nonnegative. -/
theorem ciA_sq_le (r1 r2 d : ℝ) (hr1 : 0 ≤ r1) (hr2 : 0 ≤ r2) (hd : 0 < d)
    (hle1 : d ≤ r1 + r2) (hle2 : |r1 - r2| ≤ d) :
    ((r1 ^ 2 - r2 ^ 2 + d ^ 2) / (2 * d)) ^ 2 ≤ r1 ^ 2 := by
  rw [div_pow, div_le_iff₀ (by positivity)]
  rw [abs_le] at hle2
  nlinarith [mul_nonneg (mul_nonneg (mul_nonneg
    (sub_nonneg.mpr hle1) (by positivity : (0:ℝ) ≤ r1 + r2 + d))
    (by linarith [hle2.2] : (0:ℝ) ≤ d - (r1 - r2)))
    (by linarith [hle2.1] : (0:ℝ) ≤ d + (r1 - r2))]

/-- Algebra: a point at offset `(a·dx + h·dy, a·dy - h·dx)/d` from the first
center is at squared distance `r1²` from it (stated cleared of denominators). -/
theorem circle_alg1 (a h d r1 dx dy : ℝ)
    (hd2 : d ^ 2 = dx ^ 2 + dy ^ 2) (hh2 : h ^ 2 = r1 ^ 2 - a ^ 2) :
    (a * dx + h * dy) ^ 2 + (a * dy - h * dx) ^ 2 = r1 ^ 2 * d ^ 2 := by
  linear_combination (dx ^ 2 + dy ^ 2) * hh2 - r1 ^ 2 * hd2

/-- Algebra: the same point is at squared distance `r2²` from the second
center (stated cleared of denominators). -/
theorem circle_alg2 (a h d r1 r2 dx dy : ℝ)
    (hd2 : d ^ 2 = dx ^ 2 + dy ^ 2) (hh2 : h ^ 2 = r1 ^ 2 - a ^ 2)
    (h2ad : a * (2 * d) = r1 ^ 2 - r2 ^ 2 + d ^ 2) :
    ((a - d) * dx + h * dy) ^ 2 + ((a - d) * dy - h * dx) ^ 2 = r2 ^ 2 * d ^ 2 := by
  linear_combination (dx ^ 2 + dy ^ 2) * hh2 - (dx ^ 2 + dy ^ 2) * h2ad - r2 ^ 2 * hd2

/-- Soundness of the intersection formula: both points returned by
`circleIntersection` lie exactly on both circles (in real arithmetic). -/
theorem circleIntersection_some_on_circles (c1 : Pt) (r1 : ℝ) (c2 : Pt) (r2 : ℝ)
    (p q : Pt) (hr1 : 0 ≤ r1) (hr2 : 0 ≤ r2)
    (hs : circleIntersection c1 r1 c2 r2 = some (p, q)) :
    distance c1 p = r1 ∧ distance c2 p = r2 ∧ distance c1 q = r1 ∧ distance c2 q = r2 := by
  have hd : 0 < distance c1 c2 := circleIntersection_some_dist_pos c1 r1 c2 r2 p q hs
  unfold circleIntersection at hs
  dsimp only at hs
  split_ifs at hs with h1 h2 h3
  rw [Option.some.injEq, Prod.mk.injEq] at hs
  obtain ⟨hp, hq⟩ := hs
  subst hp
  subst hq
  set d := distance c1 c2 with hdd
  set a := (r1 ^ 2 - r2 ^ 2 + d ^ 2) / (2 * d) with hadef
  set h := Real.sqrt (r1 ^ 2 - a ^ 2) with hhdef
  have hdne : d ≠ 0 := ne_of_gt hd
  have hle1 : d ≤ r1 + r2 := not_lt.mp h1
  have hle2 : |r1 - r2| ≤ d := not_lt.mp h2
  have ha2 : a ^ 2 ≤ r1 ^ 2 := by
    rw [hadef]
    exact ciA_sq_le r1 r2 d hr1 hr2 hd hle1 hle2
  have hh2 : h ^ 2 = r1 ^ 2 - a ^ 2 := by
    rw [hhdef]
    exact Real.sq_sqrt (by linarith)
  have hh2n : (-h) ^ 2 = r1 ^ 2 - a ^ 2 := by rw [← hh2]; ring
  have hd2 : d ^ 2 = (c2.x - c1.x) ^ 2 + (c2.y - c1.y) ^ 2 := by
    rw [hdd]
    exact distance_sq c1 c2
  have h2ad : a * (2 * d) = r1 ^ 2 - r2 ^ 2 + d ^ 2 := by
    rw [hadef]
    exact div_mul_cancel₀ _ (mul_ne_zero two_ne_zero hdne)
  refine ⟨?_, ?_, ?_, ?_⟩
  · apply distance_eq_of_sq _ _ _ hr1
    dsimp only
    have e1 : c1.x + a * (c2.x - c1.x) / d + h * (c2.y - c1.y) / d - c1.x
        = (a * (c2.x - c1.x) + h * (c2.y - c1.y)) / d := by
      field_simp
      ring
    have e2 : c1.y + a * (c2.y - c1.y) / d - h * (c2.x - c1.x) / d - c1.y
        = (a * (c2.y - c1.y) - h * (c2.x - c1.x)) / d := by
      field_simp
      ring
    rw [e1, e2, div_pow, div_pow, div_add_div_same,
      circle_alg1 a h d r1 (c2.x - c1.x) (c2.y - c1.y) hd2 hh2,
      mul_div_assoc, div_self (pow_ne_zero 2 hdne), mul_one]
  · apply distance_eq_of_sq _ _ _ hr2
    dsimp only
    have e1 : c1.x + a * (c2.x - c1.x) / d + h * (c2.y - c1.y) / d - c2.x
        = ((a - d) * (c2.x - c1.x) + h * (c2.y - c1.y)) / d := by
      field_simp
      ring
    have e2 : c1.y + a * (c2.y - c1.y) / d - h * (c2.x - c1.x) / d - c2.y
        = ((a - d) * (c2.y - c1.y) - h * (c2.x - c1.x)) / d := by
      field_simp
      ring
    rw [e1, e2, div_pow, div_pow, div_add_div_same,
      circle_alg2 a h d r1 r2 (c2.x - c1.x) (c2.y - c1.y) hd2 hh2 h2ad,
      mul_div_assoc, div_self (pow_ne_zero 2 hdne), mul_one]
  · apply distance_eq_of_sq _ _ _ hr1
    dsimp only
    have e1 : c1.x + a * (c2.x - c1.x) / d - h * (c2.y - c1.y) / d - c1.x
        = (a * (c2.x - c1.x) + (-h) * (c2.y - c1.y)) / d := by
      field_simp
      ring
    have e2 : c1.y + a * (c2.y - c1.y) / d + h * (c2.x - c1.x) / d - c1.y
        = (a * (c2.y - c1.y) - (-h) * (c2.x - c1.x)) / d := by
      field_simp
      ring
    rw [e1, e2, div_pow, div_pow, div_add_div_same,
      circle_alg1 a (-h) d r1 (c2.x - c1.x) (c2.y - c1.y) hd2 hh2n,
      mul_div_assoc, div_self (pow_ne_zero 2 hdne), mul_one]
  · apply distance_eq_of_sq _ _ _ hr2
    dsimp only
    have e1 : c1.x + a * (c2.x - c1.x) / d - h * (c2.y - c1.y) / d - c2.x
        = ((a - d) * (c2.x - c1.x) + (-h) * (c2.y - c1.y)) / d := by
      field_simp
      ring
    have e2 : c1.y + a * (c2.y - c1.y) / d + h * (c2.x - c1.x) / d - c2.y
        = ((a - d) * (c2.y - c1.y) - (-h) * (c2.x - c1.x)) / d := by
      field_simp
      ring
    rw [e1, e2, div_pow, div_pow, div_add_div_same,
      circle_alg2 a (-h) d r1 r2 (c2.x - c1.x) (c2.y - c1.y) hd2 hh2n h2ad,
      mul_div_assoc, div_self (pow_ne_zero 2 hdne), mul_one]

/-- Completeness of the intersection formula: any point lying on both
circles is one of the two points returned by `circleIntersection`. -/
theorem circleIntersection_mem (c1 : Pt) (r1 : ℝ) (c2 : Pt) (r2 : ℝ)
    (p q P : Pt) (hs : circleIntersection c1 r1 c2 r2 = some (p, q))
    (hP1 : distance c1 P = r1) (hP2 : distance c2 P = r2) :
    P = p ∨ P = q := by
  have hd : 0 < distance c1 c2 := circleIntersection_some_dist_pos c1 r1 c2 r2 p q hs
  have hH1 : (P.x - c1.x) ^ 2 + (P.y - c1.y) ^ 2 = r1 ^ 2 := by
    rw [← distance_sq c1 P, hP1]
  have hH2 : (P.x - c2.x) ^ 2 + (P.y - c2.y) ^ 2 = r2 ^ 2 := by
    rw [← distance_sq c2 P, hP2]
  unfold circleIntersection at hs
  dsimp only at hs
  split_ifs at hs with h1 h2 h3
  rw [Option.some.injEq, Prod.mk.injEq] at hs
  obtain ⟨hp, hq⟩ := hs
  set d := distance c1 c2 with hdd
  set a := (r1 ^ 2 - r2 ^ 2 + d ^ 2) / (2 * d) with hadef
  set h := Real.sqrt (r1 ^ 2 - a ^ 2) with hhdef
  have hdne : d ≠ 0 := ne_of_gt hd
  have hd2 : d ^ 2 = (c2.x - c1.x) ^ 2 + (c2.y - c1.y) ^ 2 := by
    rw [hdd]
    exact distance_sq c1 c2
  have h2ad : a * (2 * d) = r1 ^ 2 - r2 ^ 2 + d ^ 2 := by
    rw [hadef]
    exact div_mul_cancel₀ _ (mul_ne_zero two_ne_zero hdne)
  have hU : (P.x - c1.x) * (c2.x - c1.x) + (P.y - c1.y) * (c2.y - c1.y) = a * d := by
    linear_combination (1/2 : ℝ) * hH1 - (1/2 : ℝ) * hH2 - (1/2 : ℝ) * h2ad - (1/2 : ℝ) * hd2
  have hT2 : ((P.x - c1.x) * (c2.y - c1.y) - (P.y - c1.y) * (c2.x - c1.x)) ^ 2
      = (r1 ^ 2 - a ^ 2) * d ^ 2 := by
    linear_combination ((c2.x - c1.x) ^ 2 + (c2.y - c1.y) ^ 2) * hH1 - r1 ^ 2 * hd2
      - ((P.x - c1.x) * (c2.x - c1.x) + (P.y - c1.y) * (c2.y - c1.y) + a * d) * hU
  have hr1a : 0 ≤ r1 ^ 2 - a ^ 2 := by
    have hd2pos : 0 < d ^ 2 := by positivity
    nlinarith [sq_nonneg ((P.x - c1.x) * (c2.y - c1.y) - (P.y - c1.y) * (c2.x - c1.x))]
  have hh2 : h ^ 2 = r1 ^ 2 - a ^ 2 := by
    rw [hhdef]
    exact Real.sq_sqrt hr1a
  have hTsq : ((P.x - c1.x) * (c2.y - c1.y) - (P.y - c1.y) * (c2.x - c1.x)) ^ 2
      = (h * d) ^ 2 := by
    rw [mul_pow, hh2]
    exact hT2
  have hTcases : (P.x - c1.x) * (c2.y - c1.y) - (P.y - c1.y) * (c2.x - c1.x) = h * d ∨
      (P.x - c1.x) * (c2.y - c1.y) - (P.y - c1.y) * (c2.x - c1.x) = -(h * d) := by
    have hfac : ((P.x - c1.x) * (c2.y - c1.y) - (P.y - c1.y) * (c2.x - c1.x) - h * d)
        * ((P.x - c1.x) * (c2.y - c1.y) - (P.y - c1.y) * (c2.x - c1.x) + h * d) = 0 := by
      linear_combination hTsq
    rcases mul_eq_zero.mp hfac with h' | h'
    · left
      linarith
    · right
      linarith
  rcases hTcases with hT | hT
  · left
    have hpx : (P.x - c1.x) * d = a * (c2.x - c1.x) + h * (c2.y - c1.y) := by
      apply mul_right_cancel₀ hdne
      linear_combination (c2.x - c1.x) * hU + (c2.y - c1.y) * hT + (P.x - c1.x) * hd2
    have hpy : (P.y - c1.y) * d = a * (c2.y - c1.y) - h * (c2.x - c1.x) := by
      apply mul_right_cancel₀ hdne
      linear_combination (c2.y - c1.y) * hU - (c2.x - c1.x) * hT + (P.y - c1.y) * hd2
    rw [← hp]
    ext
    · dsimp only
      field_simp
      linear_combination hpx
    · dsimp only
      field_simp
      linear_combination hpy
  · right
    have hpx : (P.x - c1.x) * d = a * (c2.x - c1.x) - h * (c2.y - c1.y) := by
      apply mul_right_cancel₀ hdne
      linear_combination (c2.x - c1.x) * hU + (c2.y - c1.y) * hT + (P.x - c1.x) * hd2
    have hpy : (P.y - c1.y) * d = a * (c2.y - c1.y) + h * (c2.x - c1.x) := by
      apply mul_right_cancel₀ hdne
      linear_combination (c2.y - c1.y) * hU - (c2.x - c1.x) * hT + (P.y - c1.y) * hd2
    rw [← hq]
    ext
    · dsimp only
      field_simp
      linear_combination hpx
    · dsimp only
      field_simp
      linear_combination hpy

/-- `geometry.points.find(p => p.id === role)`: first point with the given id. -/
def findPoint (g : Geometry) (role : String) : Option NPoint :=
  g.points.find? (fun p => p.id == role)

/-- In-place mutation `found.x = nx; found.y = ny` of the first point with the
given id inside a (JSON-cloned) point array, as a functional replacement. -/
def setPoint : List NPoint → String → ℝ → ℝ → List NPoint
  | [], _, _, _ => []
  | p :: ps, role, nx, ny =>
    if p.id == role then ⟨p.id, nx, ny⟩ :: ps
    else p :: setPoint ps role nx ny

theorem findPoint_setPoint_self (ps : List NPoint) (role : String) (nx ny : ℝ)
    (p : NPoint) (hf : ps.find? (fun q => q.id == role) = some p) :
    (setPoint ps role nx ny).find? (fun q => q.id == role) = some ⟨p.id, nx, ny⟩ := by
  induction ps with
  | nil => simp [List.find?] at hf
  | cons hd tl ih =>
    cases hid : (hd.id == role) with
    | true =>
      rw [List.find?_cons] at hf
      rw [hid] at hf
      simp only [Option.some.injEq] at hf
      subst hf
      simp only [setPoint, hid, if_true]
      rw [List.find?_cons]
      simp [hid]
    | false =>
      rw [List.find?_cons] at hf
      rw [hid] at hf
      simp only [setPoint, hid]
      rw [if_neg (by simp [hid])]
      rw [List.find?_cons]
      simp only [hid]
      exact ih hf

theorem findPoint_setPoint_ne (ps : List NPoint) (role other : String)
    (hne : role ≠ other) (nx ny : ℝ) :
    (setPoint ps role nx ny).find? (fun q => q.id == other)
      = ps.find? (fun q => q.id == other) := by
  induction ps with
  | nil => simp [setPoint]
  | cons hd tl ih =>
    cases hid : (hd.id == role) with
    | true =>
      have hid' : hd.id = role := by simpa using hid
      have hother : (hd.id == other) = false := by
        simp [hid', hne]
      simp only [setPoint, hid, if_true]
      rw [List.find?_cons, List.find?_cons]
      simp only [hother]
    | false =>
      simp only [setPoint, hid]
      rw [if_neg (by simp [hid])]
      rw [List.find?_cons, List.find?_cons]
      cases hoth : (hd.id == other) with
      | true => simp only [hoth]
      | false =>
        simp only [hoth]
        exact ih

theorem findPoint_id (g : Geometry) (role : String) (p : NPoint)
    (hf : findPoint g role = some p) : p.id = role := by
  have := List.find?_some hf
  simpa using this

/-- The length of the cylinder after applying a stroke, api.js line 136:
`Math.max(0.1, baseLength + stroke)`. -/
noncomputable def newCylinderLength (cylinderBase cylinderRod : NPoint) (stroke : ℝ) : ℝ :=
  max 0.1 (distance cylinderBase.pos cylinderRod.pos + stroke)

/-- The repositioned cylinder rod tip, api.js lines 137-138: the cylinder
keeps its base direction `angle(cylinderBase, cylinderRod)` and only its
length changes with the stroke. -/
noncomputable def newCylinderRod (cylinderBase cylinderRod : NPoint) (stroke : ℝ) : Pt :=
  ⟨cylinderBase.x + newCylinderLength cylinderBase cylinderRod stroke
      * Real.cos (angle cylinderBase.pos cylinderRod.pos),
   cylinderBase.y + newCylinderLength cylinderBase cylinderRod stroke
      * Real.sin (angle cylinderBase.pos cylinderRod.pos)⟩

/-- `calculateGeometryFromStroke(baseGeometry, stroke)` of api.js.
The JSON deep clone followed by in-place mutation of the found
`cylinderRod` and `armEnd` points becomes first-match replacement on the
point list; when a required point is missing the clone is returned
untouched; when the circle intersection is `null` only `cylinderRod` is
replaced and `armEnd` keeps its previous (stale) value, exactly as in the
source. -/
noncomputable def calculateGeometryFromStroke (baseGeometry : Geometry) (stroke : ℝ) :
    Geometry :=
  match findPoint baseGeometry "cylinderBase", findPoint baseGeometry "cylinderRod",
      findPoint baseGeometry "pivotPoint", findPoint baseGeometry "armEnd" with
  | some cylinderBase, some cylinderRod, some pivotPoint, some armEnd =>
    let armLength := distance pivotPoint.pos armEnd.pos
    let crossLinkLength := distance cylinderRod.pos armEnd.pos
    let rod := newCylinderRod cylinderBase cylinderRod stroke
    let points1 := setPoint baseGeometry.points "cylinderRod" rod.x rod.y
    match circleIntersection pivotPoint.pos armLength rod crossLinkLength with
    | some (int1, int2) =>
      if distance int1 armEnd.pos ≤ distance int2 armEnd.pos then
        ⟨setPoint points1 "armEnd" int1.x int1.y⟩
      else
        ⟨setPoint points1 "armEnd" int2.x int2.y⟩
    | none => ⟨points1⟩
  | _, _, _, _ => baseGeometry

/-- The record returned by `calculateBasicForces`, api.js lines 236-248
(field order as in the source object literal; angles in degrees). -/
structure ForceAnalysisResult where
  cylinderForce : ℝ
  cylinderLength : ℝ
  crossLinkForce : ℝ
  armLength : ℝ
  outputForce : ℝ
  torque : ℝ
  mechanicalAdvantage : ℝ
  cylinderAngle : ℝ
  armAngle : ℝ
  crossLinkAngle : ℝ
  efficiency : ℝ

/-- `calculateBasicForces(geometry, cylinderPressure = 100, cylinderDiameter = 2)`
of api.js; returns `null` (here `none`) when a required point is missing.
The source also computes `crossLinkLength`, unused in the result. -/
noncomputable def calculateBasicForces (geometry : Geometry)
    (cylinderPressure cylinderDiameter : ℝ) : Option ForceAnalysisResult :=
  match findPoint geometry "cylinderBase", findPoint geometry "cylinderRod",
      findPoint geometry "pivotPoint", findPoint geometry "armEnd" with
  | some cylinderBase, some cylinderRod, some pivotPoint, some armEnd =>
    let cylinderLength := distance cylinderBase.pos cylinderRod.pos
    let armLength := distance pivotPoint.pos armEnd.pos
    let cylinderAngle := angle cylinderBase.pos cylinderRod.pos
    let armAngle := angle pivotPoint.pos armEnd.pos
    let crossLinkAngle := angle cylinderRod.pos armEnd.pos
    let psiToNMm2 : ℝ := 0.00689476
    let pressureNMm2 := cylinderPressure * psiToNMm2
    let cylinderArea := Real.pi * (cylinderDiameter / 2) ^ 2
    let cylinderForce := pressureNMm2 * cylinderArea
    let cylinderCrossLinkAngle := crossLinkAngle - cylinderAngle
    let crossLinkForce := cylinderForce / Real.cos cylinderCrossLinkAngle
    let armCrossLinkAngle := Real.pi - (crossLinkAngle - armAngle)
    let torque := crossLinkForce * Real.sin armCrossLinkAngle * armLength
    let outputForce := torque / armLength
    let mechanicalAdvantage := outputForce / cylinderForce
    let idealMechanicalAdvantage := armLength / cylinderLength
    let efficiency := mechanicalAdvantage / idealMechanicalAdvantage * 100
    some ⟨cylinderForce, cylinderLength, crossLinkForce, armLength, outputForce, torque,
      mechanicalAdvantage, cylinderAngle * (180 / Real.pi), armAngle * (180 / Real.pi),
      crossLinkAngle * (180 / Real.pi), efficiency⟩
  | _, _, _, _ => none

/-- The result of `validateGeometry`: the source returns an object with a
`constraints` key in the normal path but an `errors` key (and no
`constraints`) when a required point is missing; both keys are modelled as
optional fields. -/
structure ValidationResult where
  valid : Bool
  constraints : Option (List String)
  errors : Option (List String)

/-- `validateGeometry(geometry)` of api.js lines 256-305: triangle-inequality
checks over pivotPoint-cylinderRod-armEnd plus cylinder length bounds,
messages appended in source order; `valid = (constraints.length === 0)`. -/
noncomputable def validateGeometry (geometry : Geometry) : ValidationResult :=
  match findPoint geometry "cylinderBase", findPoint geometry "cylinderRod",
      findPoint geometry "pivotPoint", findPoint geometry "armEnd" with
  | some cylinderBase, some cylinderRod, some pivotPoint, some armEnd =>
    let cylinderLength := distance cylinderBase.pos cylinderRod.pos
    let armLength := distance pivotPoint.pos armEnd.pos
    let crossLinkLength := distance cylinderRod.pos armEnd.pos
    let distPivotToCylinderRod := distance pivotPoint.pos cylinderRod.pos
    let constraints : List String :=
      (if armLength + crossLinkLength ≤ distPivotToCylinderRod then
        ["Arm and cross-link are too short to connect"] else []) ++
      (if distPivotToCylinderRod + armLength ≤ crossLinkLength then
        ["Cross-link is too long for the mechanism"] else []) ++
      (if distPivotToCylinderRod + crossLinkLength ≤ armLength then
        ["Arm is too long for the mechanism"] else []) ++
      (if cylinderLength < 10 then ["Cylinder length is too short"] else []) ++
      (if cylinderLength > 1000 then ["Cylinder length is too long"] else [])
    ⟨constraints.isEmpty, some constraints, none⟩
  | _, _, _, _ => ⟨false, none, some ["Missing required points in geometry"]⟩

/-- One sample of `calculateMotionRange`, api.js lines 338-343. -/
structure MotionState where
  strokePercentage : ℝ
  stroke : ℝ
  geometry : Geometry
  forces : Option ForceAnalysisResult

/-- The loop body of `calculateMotionRange` (api.js lines 330-347): the
sample at loop index `i`, using the source's default pressure and diameter
for the force call. -/
noncomputable def motionSample (geometry : Geometry) (minStroke maxStroke : ℝ)
    (steps i : ℕ) : MotionState :=
  let strokePercent := (i : ℝ) / (steps : ℝ)
  let stroke := minStroke + (maxStroke - minStroke) * strokePercent
  let newGeometry := calculateGeometryFromStroke geometry stroke
  ⟨strokePercent * 100, stroke, newGeometry, calculateBasicForces newGeometry 100 2⟩

/-- `calculateMotionRange(geometry, steps = 20)` of api.js lines 313-350:
strokes swept linearly from `-0.5 × baseLength` to `+0.5 × baseLength` over
`steps + 1` samples. The source dereferences the found `cylinderBase` and
`cylinderRod` without a guard, so a geometry missing either point throws a
TypeError; that failure case is modelled as `none`. Nothing in the loop
body can throw, so the `try/catch` of the source never skips a sample. -/
noncomputable def calculateMotionRange (geometry : Geometry) (steps : ℕ) :
    Option (List MotionState) :=
  match findPoint geometry "cylinderBase", findPoint geometry "cylinderRod" with
  | some cylinderBase, some cylinderRod =>
    let baseLength := distance cylinderBase.pos cylinderRod.pos
    let minStroke := -baseLength * 0.5
    let maxStroke := baseLength * 0.5
    some ((List.range (steps + 1)).map (motionSample geometry minStroke maxStroke steps))
  | _, _ => none

theorem motionSample_strokePercentage (g : Geometry) (mn mx : ℝ) (steps i : ℕ) :
    (motionSample g mn mx steps i).strokePercentage = (i : ℝ) / (steps : ℝ) * 100 := rfl

theorem motionSample_stroke (g : Geometry) (mn mx : ℝ) (steps i : ℕ) :
    (motionSample g mn mx steps i).stroke = mn + (mx - mn) * ((i : ℝ) / (steps : ℝ)) := rfl

/-! Concrete fixture used to witness the theorems: an axis-aligned linkage
with pivot at the origin, arm end at (5,0), cylinder from (6,0) to (8,0). -/

def exCylinderBase : NPoint := ⟨"cylinderBase", 6, 0⟩

def exCylinderRod : NPoint := ⟨"cylinderRod", 8, 0⟩

def exPivotPoint : NPoint := ⟨"pivotPoint", 0, 0⟩

def exArmEnd : NPoint := ⟨"armEnd", 5, 0⟩

def exGeometry : Geometry := ⟨[exCylinderBase, exCylinderRod, exPivotPoint, exArmEnd]⟩

theorem angle_eval_pos_x (p1 p2 : Pt) (hx : 0 < p2.x - p1.x) (hy : p2.y - p1.y = 0) :
    angle p1 p2 = 0 := by
  unfold angle atan2
  rw [hy]
  have hz : (⟨p2.x - p1.x, 0⟩ : Complex) = ((p2.x - p1.x : ℝ) : Complex) := by
    apply Complex.ext <;> simp
  rw [hz]
  exact Complex.arg_ofReal_of_nonneg hx.le

theorem angle_eval_neg_x (p1 p2 : Pt) (hx : p2.x - p1.x < 0) (hy : p2.y - p1.y = 0) :
    angle p1 p2 = Real.pi := by
  unfold angle atan2
  rw [hy]
  have hz : (⟨p2.x - p1.x, 0⟩ : Complex) = ((p2.x - p1.x : ℝ) : Complex) := by
    apply Complex.ext <;> simp
  rw [hz]
  exact Complex.arg_ofReal_of_neg hx

theorem exBaseLength : distance exCylinderBase.pos exCylinderRod.pos = 2 :=
  distance_eq_of_sq _ _ _ (by norm_num) (by norm_num [exCylinderBase, exCylinderRod, NPoint.pos])

theorem exArmLength : distance exPivotPoint.pos exArmEnd.pos = 5 :=
  distance_eq_of_sq _ _ _ (by norm_num) (by norm_num [exPivotPoint, exArmEnd, NPoint.pos])

theorem exCrossLinkLength : distance exCylinderRod.pos exArmEnd.pos = 3 :=
  distance_eq_of_sq _ _ _ (by norm_num) (by norm_num [exCylinderRod, exArmEnd, NPoint.pos])

theorem exAngle : angle exCylinderBase.pos exCylinderRod.pos = 0 :=
  angle_eval_pos_x _ _ (by norm_num [exCylinderBase, exCylinderRod, NPoint.pos])
    (by norm_num [exCylinderBase, exCylinderRod, NPoint.pos])

theorem exNewRod (s : ℝ) :
    newCylinderRod exCylinderBase exCylinderRod s = ⟨6 + max 0.1 (2 + s), 0⟩ := by
  unfold newCylinderRod newCylinderLength
  rw [exBaseLength, exAngle]
  apply Pt.ext <;> simp [exCylinderBase]

theorem exCI_tangent :
    circleIntersection ⟨0, 0⟩ 5 ⟨8, 0⟩ 3 = some (⟨5, 0⟩, ⟨5, 0⟩) := by
  unfold circleIntersection
  have hd : distance ⟨0, 0⟩ ⟨8, 0⟩ = 8 :=
    distance_eq_of_sq _ _ _ (by norm_num) (by norm_num)
  dsimp only
  rw [hd]
  norm_num

theorem exCI_far :
    circleIntersection ⟨0, 0⟩ 5 ⟨108, 0⟩ 3 = none := by
  rw [circleIntersection_eq_none_iff]
  have hd : distance ⟨0, 0⟩ ⟨108, 0⟩ = 108 :=
    distance_eq_of_sq _ _ _ (by norm_num) (by norm_num)
  rw [hd]
  norm_num

/-! Access lemmas for the solved geometry: which point each role maps to
after `calculateGeometryFromStroke`. -/

theorem findRod_cgfs (g : Geometry) (cb cr pp ae : NPoint) (stroke : ℝ)
    (hcb : findPoint g "cylinderBase" = some cb) (hcr : findPoint g "cylinderRod" = some cr)
    (hpp : findPoint g "pivotPoint" = some pp) (hae : findPoint g "armEnd" = some ae) :
    findPoint (calculateGeometryFromStroke g stroke) "cylinderRod"
      = some ⟨cr.id, (newCylinderRod cb cr stroke).x, (newCylinderRod cb cr stroke).y⟩ := by
  unfold calculateGeometryFromStroke
  rw [hcb, hcr, hpp, hae]
  dsimp only
  have hfind1 : (setPoint g.points "cylinderRod" (newCylinderRod cb cr stroke).x
      (newCylinderRod cb cr stroke).y).find? (fun q => q.id == "cylinderRod")
      = some ⟨cr.id, (newCylinderRod cb cr stroke).x, (newCylinderRod cb cr stroke).y⟩ :=
    findPoint_setPoint_self _ _ _ _ _ hcr
  rcases circleIntersection pp.pos (distance pp.pos ae.pos) (newCylinderRod cb cr stroke)
      (distance cr.pos ae.pos) with _ | ⟨int1, int2⟩
  · exact hfind1
  · dsimp only
    split_ifs
    · unfold findPoint
      dsimp only
      rw [findPoint_setPoint_ne _ _ _ (by decide)]
      exact hfind1
    · unfold findPoint
      dsimp only
      rw [findPoint_setPoint_ne _ _ _ (by decide)]
      exact hfind1

theorem findOther_cgfs (g : Geometry) (cb cr pp ae : NPoint) (stroke : ℝ) (role : String)
    (h1 : "cylinderRod" ≠ role) (h2 : "armEnd" ≠ role)
    (hcb : findPoint g "cylinderBase" = some cb) (hcr : findPoint g "cylinderRod" = some cr)
    (hpp : findPoint g "pivotPoint" = some pp) (hae : findPoint g "armEnd" = some ae) :
    findPoint (calculateGeometryFromStroke g stroke) role = findPoint g role := by
  unfold calculateGeometryFromStroke
  rw [hcb, hcr, hpp, hae]
  dsimp only
  rcases circleIntersection pp.pos (distance pp.pos ae.pos) (newCylinderRod cb cr stroke)
      (distance cr.pos ae.pos) with _ | ⟨int1, int2⟩
  · unfold findPoint
    dsimp only
    rw [findPoint_setPoint_ne _ _ _ h1]
  · dsimp only
    split_ifs
    · unfold findPoint
      dsimp only
      rw [findPoint_setPoint_ne _ _ _ h2, findPoint_setPoint_ne _ _ _ h1]
    · unfold findPoint
      dsimp only
      rw [findPoint_setPoint_ne _ _ _ h2, findPoint_setPoint_ne _ _ _ h1]

theorem findArm_cgfs_some (g : Geometry) (cb cr pp ae : NPoint) (stroke : ℝ) (int1 int2 : Pt)
    (hcb : findPoint g "cylinderBase" = some cb) (hcr : findPoint g "cylinderRod" = some cr)
    (hpp : findPoint g "pivotPoint" = some pp) (hae : findPoint g "armEnd" = some ae)
    (hci : circleIntersection pp.pos (distance pp.pos ae.pos) (newCylinderRod cb cr stroke)
      (distance cr.pos ae.pos) = some (int1, int2)) :
    (distance int1 ae.pos ≤ distance int2 ae.pos ∧
      findPoint (calculateGeometryFromStroke g stroke) "armEnd" = some ⟨ae.id, int1.x, int1.y⟩) ∨
    (¬ distance int1 ae.pos ≤ distance int2 ae.pos ∧
      findPoint (calculateGeometryFromStroke g stroke) "armEnd" = some ⟨ae.id, int2.x, int2.y⟩) := by
  have hfindAE1 : (setPoint g.points "cylinderRod" (newCylinderRod cb cr stroke).x
      (newCylinderRod cb cr stroke).y).find? (fun q => q.id == "armEnd") = some ae := by
    rw [findPoint_setPoint_ne _ _ _ (by decide)]
    exact hae
  unfold calculateGeometryFromStroke
  rw [hcb, hcr, hpp, hae]
  dsimp only
  rw [hci]
  dsimp only
  split_ifs with hd12
  · left
    refine ⟨hd12, ?_⟩
    unfold findPoint
    dsimp only
    exact findPoint_setPoint_self _ _ _ _ _ hfindAE1
  · right
    refine ⟨hd12, ?_⟩
    unfold findPoint
    dsimp only
    exact findPoint_setPoint_self _ _ _ _ _ hfindAE1

theorem findArm_cgfs_none (g : Geometry) (cb cr pp ae : NPoint) (stroke : ℝ)
    (hcb : findPoint g "cylinderBase" = some cb) (hcr : findPoint g "cylinderRod" = some cr)
    (hpp : findPoint g "pivotPoint" = some pp) (hae : findPoint g "armEnd" = some ae)
    (hci : circleIntersection pp.pos (distance pp.pos ae.pos) (newCylinderRod cb cr stroke)
      (distance cr.pos ae.pos) = none) :
    findPoint (calculateGeometryFromStroke g stroke) "armEnd" = some ae := by
  unfold calculateGeometryFromStroke
  rw [hcb, hcr, hpp, hae]
  dsimp only
  rw [hci]
  dsimp only
  unfold findPoint
  dsimp only
  rw [findPoint_setPoint_ne _ _ _ (by decide)]
  exact hae

/-- C1: for every base geometry containing the four required roles and every
stroke for which `circleIntersection` returns a non-null pair, the geometry
returned by `calculateGeometryFromStroke` satisfies
`distance(pivotPoint, armEnd) =` the base arm length and
`distance(cylinderRod, armEnd) =` the base cross-link length, exactly, in
real arithmetic: the solver never changes the mechanism's fixed link
lengths. -/
theorem C1_solver_preserves_link_lengths (g : Geometry) (cb cr pp ae : NPoint)
    (stroke : ℝ) (int1 int2 : Pt)
    (hcb : findPoint g "cylinderBase" = some cb) (hcr : findPoint g "cylinderRod" = some cr)
    (hpp : findPoint g "pivotPoint" = some pp) (hae : findPoint g "armEnd" = some ae)
    (hci : circleIntersection pp.pos (distance pp.pos ae.pos) (newCylinderRod cb cr stroke)
      (distance cr.pos ae.pos) = some (int1, int2)) :
    ∃ pp2 rod2 ae2 : NPoint,
      findPoint (calculateGeometryFromStroke g stroke) "pivotPoint" = some pp2 ∧
      findPoint (calculateGeometryFromStroke g stroke) "cylinderRod" = some rod2 ∧
      findPoint (calculateGeometryFromStroke g stroke) "armEnd" = some ae2 ∧
      distance pp2.pos ae2.pos = distance pp.pos ae.pos ∧
      distance rod2.pos ae2.pos = distance cr.pos ae.pos := by
  have hr1 : 0 ≤ distance pp.pos ae.pos := distance_nonneg _ _
  have hr2 : 0 ≤ distance cr.pos ae.pos := distance_nonneg _ _
  obtain ⟨h1p, h2p, h1q, h2q⟩ := circleIntersection_some_on_circles _ _ _ _ _ _ hr1 hr2 hci
  have hppfind : findPoint (calculateGeometryFromStroke g stroke) "pivotPoint" = some pp := by
    rw [findOther_cgfs g cb cr pp ae stroke _ (by decide) (by decide) hcb hcr hpp hae]
    exact hpp
  have hrodfind := findRod_cgfs g cb cr pp ae stroke hcb hcr hpp hae
  rcases findArm_cgfs_some g cb cr pp ae stroke int1 int2 hcb hcr hpp hae hci with
    ⟨hle, hfind⟩ | ⟨hle, hfind⟩
  · refine ⟨pp, _, _, hppfind, hrodfind, hfind, ?_, ?_⟩
    · show distance pp.pos int1 = distance pp.pos ae.pos
      exact h1p
    · show distance (newCylinderRod cb cr stroke) int1 = distance cr.pos ae.pos
      exact h2p
  · refine ⟨pp, _, _, hppfind, hrodfind, hfind, ?_, ?_⟩
    · show distance pp.pos int2 = distance pp.pos ae.pos
      exact h1q
    · show distance (newCylinderRod cb cr stroke) int2 = distance cr.pos ae.pos
      exact h2q

/-- C3: for every base geometry with the four required roles whose base
cylinder length is at least 0.1, solving at stroke = 0 returns a geometry
whose `cylinderRod` and `armEnd` equal the base geometry's points exactly
(real arithmetic). -/
theorem C3_zero_stroke_identity (g : Geometry) (cb cr pp ae : NPoint)
    (hcb : findPoint g "cylinderBase" = some cb) (hcr : findPoint g "cylinderRod" = some cr)
    (hpp : findPoint g "pivotPoint" = some pp) (hae : findPoint g "armEnd" = some ae)
    (hlen : 0.1 ≤ distance cb.pos cr.pos) :
    findPoint (calculateGeometryFromStroke g 0) "cylinderRod" = some cr ∧
    findPoint (calculateGeometryFromStroke g 0) "armEnd" = some ae := by
  have hrod : newCylinderRod cb cr 0 = cr.pos := by
    unfold newCylinderRod newCylinderLength
    have hmax : max 0.1 (distance cb.pos cr.pos + 0) = distance cb.pos cr.pos := by
      rw [add_zero]
      exact max_eq_right hlen
    rw [hmax]
    have hdne : distance cb.pos cr.pos ≠ 0 := by
      intro h0
      rw [h0] at hlen
      norm_num at hlen
    obtain ⟨hcx, hcy⟩ := distance_mul_cos_sin_angle cb.pos cr.pos hdne
    apply Pt.ext
    · show cb.x + distance cb.pos cr.pos * Real.cos (angle cb.pos cr.pos) = cr.pos.x
      rw [hcx]
      show cb.x + (cr.x - cb.x) = cr.x
      ring
    · show cb.y + distance cb.pos cr.pos * Real.sin (angle cb.pos cr.pos) = cr.pos.y
      rw [hcy]
      show cb.y + (cr.y - cb.y) = cr.y
      ring
  constructor
  · have hrodfind := findRod_cgfs g cb cr pp ae 0 hcb hcr hpp hae
    rw [hrod] at hrodfind
    exact hrodfind
  · rcases hci : circleIntersection pp.pos (distance pp.pos ae.pos) (newCylinderRod cb cr 0)
        (distance cr.pos ae.pos) with _ | ⟨int1, int2⟩
    · exact findArm_cgfs_none g cb cr pp ae 0 hcb hcr hpp hae hci
    · have hP2 : distance (newCylinderRod cb cr 0) ae.pos = distance cr.pos ae.pos := by
        rw [hrod]
      have hmem := circleIntersection_mem pp.pos (distance pp.pos ae.pos)
        (newCylinderRod cb cr 0) (distance cr.pos ae.pos) int1 int2 ae.pos hci rfl hP2
      rcases findArm_cgfs_some g cb cr pp ae 0 int1 int2 hcb hcr hpp hae hci with
        ⟨hle, hfind⟩ | ⟨hle, hfind⟩
      · have hint : int1 = ae.pos := by
          rcases hmem with h | h
          · exact h.symm
          · have hd2 : distance int2 ae.pos = 0 := by
              rw [← h]
              exact distance_self _
            have hd1 : distance int1 ae.pos = 0 :=
              le_antisymm (hd2 ▸ hle) (distance_nonneg _ _)
            exact (distance_eq_zero_iff _ _).mp hd1
        rw [hfind, hint]
        rfl
      · have hint : int2 = ae.pos := by
          rcases hmem with h | h
          · exfalso
            apply hle
            have hd1 : distance int1 ae.pos = 0 := by
              rw [← h]
              exact distance_self _
            rw [hd1]
            exact distance_nonneg _ _
          · exact h.symm
        rw [hfind, hint]
        rfl

/-- C8: for every base geometry with the four required roles and every
stroke (including arbitrarily large negative strokes), the solved geometry
satisfies `distance(cylinderBase, cylinderRod) = max(0.1, baseLength + stroke)`,
so the resulting cylinder length never drops below the 0.1 floor. -/
theorem C8_cylinder_length_clamped (g : Geometry) (cb cr pp ae : NPoint) (stroke : ℝ)
    (hcb : findPoint g "cylinderBase" = some cb) (hcr : findPoint g "cylinderRod" = some cr)
    (hpp : findPoint g "pivotPoint" = some pp) (hae : findPoint g "armEnd" = some ae) :
    ∃ rod2 : NPoint,
      findPoint (calculateGeometryFromStroke g stroke) "cylinderRod" = some rod2 ∧
      distance cb.pos rod2.pos = max 0.1 (distance cb.pos cr.pos + stroke) ∧
      0.1 ≤ distance cb.pos rod2.pos := by
  have hLpos : (0:ℝ) ≤ newCylinderLength cb cr stroke := by
    have h1 : (0.1:ℝ) ≤ max 0.1 (distance cb.pos cr.pos + stroke) := le_max_left _ _
    unfold newCylinderLength
    linarith
  have hdist : distance cb.pos (newCylinderRod cb cr stroke) = newCylinderLength cb cr stroke := by
    unfold newCylinderRod
    exact distance_point_at cb.pos _ _ hLpos
  refine ⟨_, findRod_cgfs g cb cr pp ae stroke hcb hcr hpp hae, ?_, ?_⟩
  · show distance cb.pos (newCylinderRod cb cr stroke) = _
    rw [hdist]
    rfl
  · show 0.1 ≤ distance cb.pos (newCylinderRod cb cr stroke)
    rw [hdist]
    exact le_max_left _ _

/-- C9: for every base geometry with the four required roles and every
stroke, the solver returns a geometry in which the `cylinderBase` and
`pivotPoint` points are those of the input (only `cylinderRod` and `armEnd`
are replaced); the input value itself is untouched, the embedding of the
source's clone-then-mutate pattern being a pure function on immutable
values. -/
theorem C9_fixed_mounts_preserved (g : Geometry) (cb cr pp ae : NPoint) (stroke : ℝ)
    (hcb : findPoint g "cylinderBase" = some cb) (hcr : findPoint g "cylinderRod" = some cr)
    (hpp : findPoint g "pivotPoint" = some pp) (hae : findPoint g "armEnd" = some ae) :
    findPoint (calculateGeometryFromStroke g stroke) "cylinderBase"
      = findPoint g "cylinderBase" ∧
    findPoint (calculateGeometryFromStroke g stroke) "pivotPoint"
      = findPoint g "pivotPoint" :=
  ⟨findOther_cgfs g cb cr pp ae stroke "cylinderBase" (by decide) (by decide) hcb hcr hpp hae,
   findOther_cgfs g cb cr pp ae stroke "pivotPoint" (by decide) (by decide) hcb hcr hpp hae⟩

/-- C2: at the fixture geometry with stroke 100 the circle-intersection
step finds no solution (the arm and cross-link cannot reach), yet
`calculateGeometryFromStroke` returns an ordinary geometry whose `armEnd`
is the unmodified base point: the source has no distinct
unreachable-configuration result variant, it only logs a console warning
and leaves the stale point in place, contradicting the claim. -/
theorem C2_unreachable_returns_stale_armEnd :
    circleIntersection exPivotPoint.pos (distance exPivotPoint.pos exArmEnd.pos)
      (newCylinderRod exCylinderBase exCylinderRod 100)
      (distance exCylinderRod.pos exArmEnd.pos) = none ∧
    findPoint (calculateGeometryFromStroke exGeometry 100) "armEnd" = some exArmEnd := by
  have hci : circleIntersection exPivotPoint.pos (distance exPivotPoint.pos exArmEnd.pos)
      (newCylinderRod exCylinderBase exCylinderRod 100)
      (distance exCylinderRod.pos exArmEnd.pos) = none := by
    rw [exArmLength, exCrossLinkLength, exNewRod]
    have h108 : (⟨6 + max 0.1 (2 + 100), 0⟩ : Pt) = ⟨108, 0⟩ := by
      apply Pt.ext
      · show 6 + max (0.1:ℝ) (2 + 100) = 108
        rw [max_eq_right (by norm_num)]
        norm_num
      · rfl
    rw [h108]
    exact exCI_far
  exact ⟨hci, findArm_cgfs_none exGeometry exCylinderBase exCylinderRod exPivotPoint exArmEnd
    100 rfl rfl rfl rfl hci⟩

/-- C4: for all centers and radii ≥ 0, `circleIntersection` returns null
exactly when `d > r1+r2`, `d < |r1-r2|`, or `d = 0` with `r1 = r2` (and
otherwise an ordered pair); every input with `d = 0` hits a null branch, so
whenever a pair is produced the divisor `d` is nonzero. -/
theorem C4_circleIntersection_null_exactly (c1 : Pt) (r1 : ℝ) (c2 : Pt) (r2 : ℝ)
    (hr1 : 0 ≤ r1) (hr2 : 0 ≤ r2) :
    (circleIntersection c1 r1 c2 r2 = none ↔
      r1 + r2 < distance c1 c2 ∨ distance c1 c2 < |r1 - r2| ∨
        (distance c1 c2 = 0 ∧ r1 = r2)) ∧
    (distance c1 c2 = 0 → circleIntersection c1 r1 c2 r2 = none) ∧
    (∀ pq : Pt × Pt, circleIntersection c1 r1 c2 r2 = some pq → distance c1 c2 ≠ 0) := by
  refine ⟨circleIntersection_eq_none_iff c1 r1 c2 r2,
    circleIntersection_eq_none_of_dist_zero c1 r1 c2 r2, ?_⟩
  rintro ⟨p, q⟩ hpq
  exact ne_of_gt (circleIntersection_some_dist_pos c1 r1 c2 r2 p q hpq)

theorem C4_witness :
    (0:ℝ) ≤ 1 ∧
    ((circleIntersection ⟨0, 0⟩ 1 ⟨10, 0⟩ 1 = none ↔
      (1:ℝ) + 1 < distance ⟨0, 0⟩ ⟨10, 0⟩ ∨ distance ⟨0, 0⟩ ⟨10, 0⟩ < |(1:ℝ) - 1| ∨
        (distance ⟨0, 0⟩ ⟨10, 0⟩ = 0 ∧ (1:ℝ) = 1)) ∧
    (distance ⟨0, 0⟩ ⟨10, 0⟩ = 0 → circleIntersection ⟨0, 0⟩ 1 ⟨10, 0⟩ 1 = none) ∧
    (∀ pq : Pt × Pt, circleIntersection ⟨0, 0⟩ 1 ⟨10, 0⟩ 1 = some pq →
      distance ⟨0, 0⟩ ⟨10, 0⟩ ≠ 0)) :=
  ⟨by norm_num,
   C4_circleIntersection_null_exactly ⟨0, 0⟩ 1 ⟨10, 0⟩ 1 (by norm_num) (by norm_num)⟩

/-- C5: every ForceAnalysisResult produced by `calculateBasicForces` (with
nonzero armLength, cylinderLength and cylinderForce) satisfies exactly
`efficiency = 100 × mechanicalAdvantage / (armLength / cylinderLength)`,
equivalently `mechanicalAdvantage × idealMechanicalAdvantage⁻¹ × 100 =
efficiency`, by construction. -/
theorem C5_efficiency_identity (g : Geometry) (pr dia : ℝ) (r : ForceAnalysisResult)
    (hs : calculateBasicForces g pr dia = some r)
    (ha : r.armLength ≠ 0) (hc : r.cylinderLength ≠ 0) (hf : r.cylinderForce ≠ 0) :
    r.efficiency = 100 * r.mechanicalAdvantage / (r.armLength / r.cylinderLength) ∧
    r.mechanicalAdvantage * (r.armLength / r.cylinderLength)⁻¹ * 100 = r.efficiency := by
  unfold calculateBasicForces at hs
  split at hs
  · dsimp only at hs
    rw [Option.some.injEq] at hs
    subst hs
    dsimp only
    constructor
    · ring
    · ring
  · exact absurd hs (by simp)

/-- The force-analysis record at the fixture geometry with the source's
default pressure (100 PSI) and diameter (2). -/
noncomputable def exForces : ForceAnalysisResult :=
  let cL := distance exCylinderBase.pos exCylinderRod.pos
  let aL := distance exPivotPoint.pos exArmEnd.pos
  let cA := angle exCylinderBase.pos exCylinderRod.pos
  let aA := angle exPivotPoint.pos exArmEnd.pos
  let xA := angle exCylinderRod.pos exArmEnd.pos
  let F := 100 * 0.00689476 * (Real.pi * ((2:ℝ) / 2) ^ 2)
  let XF := F / Real.cos (xA - cA)
  let T := XF * Real.sin (Real.pi - (xA - aA)) * aL
  let OF := T / aL
  let MA := OF / F
  ⟨F, cL, XF, aL, OF, T, MA, cA * (180 / Real.pi), aA * (180 / Real.pi),
   xA * (180 / Real.pi), MA / (aL / cL) * 100⟩

theorem exForces_eval : calculateBasicForces exGeometry 100 2 = some exForces := rfl

theorem C5_witness :
    calculateBasicForces exGeometry 100 2 = some exForces ∧
    exForces.armLength ≠ 0 ∧ exForces.cylinderLength ≠ 0 ∧ exForces.cylinderForce ≠ 0 ∧
    (exForces.efficiency = 100 * exForces.mechanicalAdvantage
        / (exForces.armLength / exForces.cylinderLength) ∧
     exForces.mechanicalAdvantage * (exForces.armLength / exForces.cylinderLength)⁻¹ * 100
        = exForces.efficiency) := by
  have h1 : exForces.armLength ≠ 0 := by
    show distance exPivotPoint.pos exArmEnd.pos ≠ 0
    rw [exArmLength]
    norm_num
  have h2 : exForces.cylinderLength ≠ 0 := by
    show distance exCylinderBase.pos exCylinderRod.pos ≠ 0
    rw [exBaseLength]
    norm_num
  have h3 : exForces.cylinderForce ≠ 0 := by
    show 100 * 0.00689476 * (Real.pi * ((2:ℝ) / 2) ^ 2) ≠ 0
    positivity
  exact ⟨exForces_eval, h1, h2, h3,
    C5_efficiency_identity exGeometry 100 2 exForces exForces_eval h1 h2 h3⟩

/-- C6: for every geometry with the four required roles, `validateGeometry`
reports its violations under the `constraints` key with
`valid = true` iff that list is empty; and whenever
`armLength + crossLinkLength` exactly equals `distance(pivotPoint,
cylinderRod)` (the degenerate straight-line case) the geometry is flagged
invalid with the too-short-to-connect message. -/
theorem C6_validator_empty_iff_valid (g : Geometry) (cb cr pp ae : NPoint)
    (hcb : findPoint g "cylinderBase" = some cb) (hcr : findPoint g "cylinderRod" = some cr)
    (hpp : findPoint g "pivotPoint" = some pp) (hae : findPoint g "armEnd" = some ae) :
    ∃ cs : List String,
      (validateGeometry g).constraints = some cs ∧
      (validateGeometry g).errors = none ∧
      ((validateGeometry g).valid = true ↔ cs = []) ∧
      (distance pp.pos ae.pos + distance cr.pos ae.pos = distance pp.pos cr.pos →
        (validateGeometry g).valid = false ∧
        "Arm and cross-link are too short to connect" ∈ cs) := by
  unfold validateGeometry
  rw [hcb, hcr, hpp, hae]
  dsimp only
  refine ⟨_, rfl, rfl, ?_, ?_⟩
  · exact List.isEmpty_iff
  · intro heq
    rw [if_pos (le_of_eq heq)]
    constructor
    · simp
    · simp

theorem C6_witness :
    findPoint exGeometry "cylinderBase" = some exCylinderBase ∧
    findPoint exGeometry "cylinderRod" = some exCylinderRod ∧
    findPoint exGeometry "pivotPoint" = some exPivotPoint ∧
    findPoint exGeometry "armEnd" = some exArmEnd ∧
    (∃ cs : List String,
      (validateGeometry exGeometry).constraints = some cs ∧
      (validateGeometry exGeometry).errors = none ∧
      ((validateGeometry exGeometry).valid = true ↔ cs = []) ∧
      (distance exPivotPoint.pos exArmEnd.pos + distance exCylinderRod.pos exArmEnd.pos
          = distance exPivotPoint.pos exCylinderRod.pos →
        (validateGeometry exGeometry).valid = false ∧
        "Arm and cross-link are too short to connect" ∈ cs)) :=
  ⟨rfl, rfl, rfl, rfl,
   C6_validator_empty_iff_valid exGeometry exCylinderBase exCylinderRod exPivotPoint exArmEnd
     rfl rfl rfl rfl⟩

/-- C7: for every base geometry with the four required roles and step count
N ≥ 1, `calculateMotionRange` returns exactly N+1 motion states, with
`strokePercentage = 100·i/N` strictly increasing from 0 to 100, and strokes
sweeping linearly from `-0.5·baseLength` to `+0.5·baseLength`; no sample is
ever omitted (the swept body is total, so the omission clause of the claim
holds vacuously). -/
theorem C7_motion_range_sweep (g : Geometry) (cb cr pp ae : NPoint) (steps : ℕ)
    (hsteps : 1 ≤ steps)
    (hcb : findPoint g "cylinderBase" = some cb) (hcr : findPoint g "cylinderRod" = some cr)
    (hpp : findPoint g "pivotPoint" = some pp) (hae : findPoint g "armEnd" = some ae) :
    ∃ l : List MotionState,
      calculateMotionRange g steps = some l ∧
      l.length = steps + 1 ∧
      (∀ i : ℕ, ∀ hi : i < l.length,
        (l.get ⟨i, hi⟩).strokePercentage = 100 * (i : ℝ) / (steps : ℝ) ∧
        (l.get ⟨i, hi⟩).stroke
          = distance cb.pos cr.pos * ((i : ℝ) / (steps : ℝ))
            - 0.5 * distance cb.pos cr.pos) ∧
      (∀ i j : ℕ, ∀ hi : i < l.length, ∀ hj : j < l.length, i < j →
        (l.get ⟨i, hi⟩).strokePercentage < (l.get ⟨j, hj⟩).strokePercentage) := by
  have hsp : (0:ℝ) < (steps : ℝ) := by
    have : 0 < steps := hsteps
    exact_mod_cast this
  unfold calculateMotionRange
  rw [hcb, hcr]
  dsimp only
  refine ⟨_, rfl, ?_, ?_, ?_⟩
  · rw [List.length_map, List.length_range]
  · intro i hi
    simp only [List.get_eq_getElem, List.getElem_map, List.getElem_range,
      motionSample_strokePercentage, motionSample_stroke]
    constructor
    · ring
    · ring
  · intro i j hi hj hij
    simp only [List.get_eq_getElem, List.getElem_map, List.getElem_range,
      motionSample_strokePercentage]
    have hijR : (i : ℝ) < (j : ℝ) := by exact_mod_cast hij
    have hdiv : (i : ℝ) / (steps : ℝ) < (j : ℝ) / (steps : ℝ) :=
      div_lt_div_of_pos_right hijR hsp
    nlinarith [hdiv]

theorem C7_witness :
    1 ≤ 2 ∧
    findPoint exGeometry "cylinderBase" = some exCylinderBase ∧
    findPoint exGeometry "cylinderRod" = some exCylinderRod ∧
    (∃ l : List MotionState,
      calculateMotionRange exGeometry 2 = some l ∧
      l.length = 2 + 1 ∧
      (∀ i : ℕ, ∀ hi : i < l.length,
        (l.get ⟨i, hi⟩).strokePercentage = 100 * (i : ℝ) / ((2 : ℕ) : ℝ) ∧
        (l.get ⟨i, hi⟩).stroke
          = distance exCylinderBase.pos exCylinderRod.pos * ((i : ℝ) / ((2 : ℕ) : ℝ))
            - 0.5 * distance exCylinderBase.pos exCylinderRod.pos) ∧
      (∀ i j : ℕ, ∀ hi : i < l.length, ∀ hj : j < l.length, i < j →
        (l.get ⟨i, hi⟩).strokePercentage < (l.get ⟨j, hj⟩).strokePercentage)) :=
  ⟨by norm_num, rfl, rfl,
   C7_motion_range_sweep exGeometry exCylinderBase exCylinderRod exPivotPoint exArmEnd 2
     (by norm_num) rfl rfl rfl rfl⟩

/-- C10: when any of the four required roles is absent,
`calculateGeometryFromStroke` returns the (cloned) input with no point
modified, `calculateBasicForces` returns null, and `validateGeometry`
reports `valid = false` with its message under the `errors` key instead of
the `constraints` key. -/
theorem C10_missing_role_degrades (g : Geometry)
    (hmiss : findPoint g "cylinderBase" = none ∨ findPoint g "cylinderRod" = none ∨
      findPoint g "pivotPoint" = none ∨ findPoint g "armEnd" = none)
    (stroke pr dia : ℝ) :
    calculateGeometryFromStroke g stroke = g ∧
    calculateBasicForces g pr dia = none ∧
    (validateGeometry g).valid = false ∧
    (validateGeometry g).errors = some ["Missing required points in geometry"] ∧
    (validateGeometry g).constraints = none := by
  have hnotall : ¬ (∃ cb cr pp ae : NPoint,
      findPoint g "cylinderBase" = some cb ∧ findPoint g "cylinderRod" = some cr ∧
      findPoint g "pivotPoint" = some pp ∧ findPoint g "armEnd" = some ae) := by
    rintro ⟨cb, cr, pp, ae, h1, h2, h3, h4⟩
    rcases hmiss with h | h | h | h <;> simp_all
  have hval : validateGeometry g
      = ⟨false, none, some ["Missing required points in geometry"]⟩ := by
    unfold validateGeometry
    split
    · rename_i cb cr pp ae hcb hcr hpp hae
      exact absurd ⟨cb, cr, pp, ae, hcb, hcr, hpp, hae⟩ hnotall
    · rfl
  refine ⟨?_, ?_, by rw [hval], by rw [hval], by rw [hval]⟩
  · unfold calculateGeometryFromStroke
    split
    · rename_i cb cr pp ae hcb hcr hpp hae
      exact absurd ⟨cb, cr, pp, ae, hcb, hcr, hpp, hae⟩ hnotall
    · rfl
  · unfold calculateBasicForces
    split
    · rename_i cb cr pp ae hcb hcr hpp hae
      exact absurd ⟨cb, cr, pp, ae, hcb, hcr, hpp, hae⟩ hnotall
    · rfl

/-- Geometry missing the `armEnd` role, used to witness C10. -/
def exGeometryMissing : Geometry := ⟨[exCylinderBase, exCylinderRod, exPivotPoint]⟩

theorem C10_witness :
    (findPoint exGeometryMissing "cylinderBase" = none ∨
      findPoint exGeometryMissing "cylinderRod" = none ∨
      findPoint exGeometryMissing "pivotPoint" = none ∨
      findPoint exGeometryMissing "armEnd" = none) ∧
    (calculateGeometryFromStroke exGeometryMissing 7 = exGeometryMissing ∧
      calculateBasicForces exGeometryMissing 100 2 = none ∧
      (validateGeometry exGeometryMissing).valid = false ∧
      (validateGeometry exGeometryMissing).errors
        = some ["Missing required points in geometry"] ∧
      (validateGeometry exGeometryMissing).constraints = none) :=
  ⟨Or.inr (Or.inr (Or.inr rfl)),
   C10_missing_role_degrades exGeometryMissing (Or.inr (Or.inr (Or.inr rfl))) 7 100 2⟩

/-- At the fixture geometry and stroke 0 the circle-intersection step is
tangent and returns the base arm end twice. -/
theorem exCI_at_zero :
    circleIntersection exPivotPoint.pos (distance exPivotPoint.pos exArmEnd.pos)
      (newCylinderRod exCylinderBase exCylinderRod 0)
      (distance exCylinderRod.pos exArmEnd.pos) = some (⟨5, 0⟩, ⟨5, 0⟩) := by
  rw [exArmLength, exCrossLinkLength, exNewRod]
  have h8 : (⟨6 + max 0.1 (2 + 0), 0⟩ : Pt) = ⟨8, 0⟩ := by
    apply Pt.ext
    · show 6 + max (0.1:ℝ) (2 + 0) = 8
      rw [max_eq_right (by norm_num)]
      norm_num
    · rfl
  rw [h8]
  exact exCI_tangent

theorem C1_witness :
    findPoint exGeometry "cylinderBase" = some exCylinderBase ∧
    findPoint exGeometry "cylinderRod" = some exCylinderRod ∧
    findPoint exGeometry "pivotPoint" = some exPivotPoint ∧
    findPoint exGeometry "armEnd" = some exArmEnd ∧
    circleIntersection exPivotPoint.pos (distance exPivotPoint.pos exArmEnd.pos)
      (newCylinderRod exCylinderBase exCylinderRod 0)
      (distance exCylinderRod.pos exArmEnd.pos) = some (⟨5, 0⟩, ⟨5, 0⟩) ∧
    (∃ pp2 rod2 ae2 : NPoint,
      findPoint (calculateGeometryFromStroke exGeometry 0) "pivotPoint" = some pp2 ∧
      findPoint (calculateGeometryFromStroke exGeometry 0) "cylinderRod" = some rod2 ∧
      findPoint (calculateGeometryFromStroke exGeometry 0) "armEnd" = some ae2 ∧
      distance pp2.pos ae2.pos = distance exPivotPoint.pos exArmEnd.pos ∧
      distance rod2.pos ae2.pos = distance exCylinderRod.pos exArmEnd.pos) :=
  ⟨rfl, rfl, rfl, rfl, exCI_at_zero,
   C1_solver_preserves_link_lengths exGeometry exCylinderBase exCylinderRod exPivotPoint
     exArmEnd 0 ⟨5, 0⟩ ⟨5, 0⟩ rfl rfl rfl rfl exCI_at_zero⟩

theorem C3_witness :
    findPoint exGeometry "cylinderBase" = some exCylinderBase ∧
    findPoint exGeometry "cylinderRod" = some exCylinderRod ∧
    findPoint exGeometry "pivotPoint" = some exPivotPoint ∧
    findPoint exGeometry "armEnd" = some exArmEnd ∧
    0.1 ≤ distance exCylinderBase.pos exCylinderRod.pos ∧
    (findPoint (calculateGeometryFromStroke exGeometry 0) "cylinderRod" = some exCylinderRod ∧
     findPoint (calculateGeometryFromStroke exGeometry 0) "armEnd" = some exArmEnd) :=
  ⟨rfl, rfl, rfl, rfl, by rw [exBaseLength]; norm_num,
   C3_zero_stroke_identity exGeometry exCylinderBase exCylinderRod exPivotPoint exArmEnd
     rfl rfl rfl rfl (by rw [exBaseLength]; norm_num)⟩

theorem C8_witness :
    findPoint exGeometry "cylinderBase" = some exCylinderBase ∧
    findPoint exGeometry "cylinderRod" = some exCylinderRod ∧
    findPoint exGeometry "pivotPoint" = some exPivotPoint ∧
    findPoint exGeometry "armEnd" = some exArmEnd ∧
    (∃ rod2 : NPoint,
      findPoint (calculateGeometryFromStroke exGeometry (-100)) "cylinderRod" = some rod2 ∧
      distance exCylinderBase.pos rod2.pos
        = max 0.1 (distance exCylinderBase.pos exCylinderRod.pos + (-100)) ∧
      0.1 ≤ distance exCylinderBase.pos rod2.pos) :=
  ⟨rfl, rfl, rfl, rfl,
   C8_cylinder_length_clamped exGeometry exCylinderBase exCylinderRod exPivotPoint exArmEnd
     (-100) rfl rfl rfl rfl⟩

theorem C9_witness :
    findPoint exGeometry "cylinderBase" = some exCylinderBase ∧
    findPoint exGeometry "cylinderRod" = some exCylinderRod ∧
    findPoint exGeometry "pivotPoint" = some exPivotPoint ∧
    findPoint exGeometry "armEnd" = some exArmEnd ∧
    (findPoint (calculateGeometryFromStroke exGeometry 3) "cylinderBase"
        = findPoint exGeometry "cylinderBase" ∧
     findPoint (calculateGeometryFromStroke exGeometry 3) "pivotPoint"
        = findPoint exGeometry "pivotPoint") :=
  ⟨rfl, rfl, rfl, rfl,
   C9_fixed_mounts_preserved exGeometry exCylinderBase exCylinderRod exPivotPoint exArmEnd 3
     rfl rfl rfl rfl⟩

end ArmForce
